import Mathlib

/-!
Verification of the agriML analysis backend (`src/analysis_backend/`).

The Python source is shallowly embedded over exact rationals (`ℚ` stands in
for NumPy float arithmetic; the stabilizing epsilon `1e-10` is the exact
rational `1 / 10^10`).  Arrays are embedded as structures carrying their
dimensions together with a total indexing function; flattened views are
explicit lists.  Fallible NumPy operations (out-of-range band access,
boolean-mask length mismatch, the explicit `ValueError` raised by the
temporal simulator) are modelled with `Except PyErr`.  The scikit-learn
train/test splitter and the random-forest trainer are opaque third-party
components, so `classify_pixels` takes them as function parameters; the
metric computations (`accuracy_score`, weighted `precision_score` /
`recall_score`, `confusion_matrix`) are embedded concretely following
scikit-learn's documented semantics on the label lists involved.
-/

namespace AgriML

/-- Python exceptions that the embedded code paths can raise.
`indexError` models NumPy `IndexError` (out-of-range band index,
boolean-mask shape mismatch); `valueError` models Python `ValueError`
(the temporal simulator's explicit raise — the spec's `DataUnavailable` —
and pandas' rejection of a zero-size rolling window). -/
inductive PyErr
  | indexError
  | valueError
deriving DecidableEq, Repr

/-- `HyperspectralCube`: 3-D numeric array, axes (height, width, band). -/
structure Cube where
  h : ℕ
  w : ℕ
  bands : ℕ
  data : ℕ → ℕ → ℕ → ℚ

/-- `LabelMap`: 2-D integer array; 0 is the "unlabeled" sentinel. -/
structure LabelMap where
  h : ℕ
  w : ℕ
  data : ℕ → ℕ → ℕ

/-- `IndexMap`: 2-D floating array produced by an index computation. -/
structure IndexMap where
  h : ℕ
  w : ℕ
  data : ℕ → ℕ → ℚ

/-- `ClassificationMap`: 2-D integer array of predicted classes. -/
structure ClassMap where
  h : ℕ
  w : ℕ
  data : ℕ → ℕ → ℕ

/-- The stabilizing epsilon `1e-10` from `indices.py`. -/
def eps : ℚ := 1 / 10 ^ 10

/-! ## indices.py

Each index reads fixed bands from the cube; NumPy raises `IndexError`
when a required band index is out of range (`data_cube[:, :, b]` with
`b ≥ bands`).  NDVI/SAVI/NDRE need bands 31/38/53, NDWI needs band 135,
so each computation fails exactly when the largest band it reads is out
of range. -/

/-- `calculate_ndvi`: `(NIR - Red) / (NIR + Red + eps)`, NIR = band 53,
Red = band 31. -/
def calculate_ndvi (c : Cube) : Except PyErr IndexMap :=
  if c.bands ≤ 53 then .error .indexError
  else .ok ⟨c.h, c.w, fun i j =>
    (c.data i j 53 - c.data i j 31) / (c.data i j 53 + c.data i j 31 + eps)⟩

/-- `calculate_savi`: `((NIR - Red) / (NIR + Red + L + eps)) * (1 + L)`,
L = 0.5. -/
def calculate_savi (c : Cube) : Except PyErr IndexMap :=
  if c.bands ≤ 53 then .error .indexError
  else .ok ⟨c.h, c.w, fun i j =>
    ((c.data i j 53 - c.data i j 31) / (c.data i j 53 + c.data i j 31 + 1/2 + eps)) * (1 + 1/2)⟩

/-- `calculate_ndwi`: `(NIR - SWIR) / (NIR + SWIR + eps)`, SWIR = band 135. -/
def calculate_ndwi (c : Cube) : Except PyErr IndexMap :=
  if c.bands ≤ 135 then .error .indexError
  else .ok ⟨c.h, c.w, fun i j =>
    (c.data i j 53 - c.data i j 135) / (c.data i j 53 + c.data i j 135 + eps)⟩

/-- `calculate_ndre`: `(NIR - RedEdge) / (NIR + RedEdge + eps)`,
RedEdge = band 38. -/
def calculate_ndre (c : Cube) : Except PyErr IndexMap :=
  if c.bands ≤ 53 then .error .indexError
  else .ok ⟨c.h, c.w, fun i j =>
    (c.data i j 53 - c.data i j 38) / (c.data i j 53 + c.data i j 38 + eps)⟩

theorem eps_pos : 0 < eps := by norm_num [eps]

/-- C9 -- For every Cube with enough bands, if at every pixel the NIR band
(53) equals the other band used by the chosen index (Red 31 for NDVI and
SAVI, SWIR 135 for NDWI, RedEdge 38 for NDRE), then every entry of the
resulting IndexMap is within `eps = 1e-10` of 0 (the embedded value is
exactly 0). -/
theorem C9_equal_bands_give_zero_index (c : Cube) :
    (∀ m, calculate_ndvi c = .ok m → (∀ i j, i < c.h → j < c.w → c.data i j 53 = c.data i j 31) →
      ∀ i j, i < c.h → j < c.w → |m.data i j| ≤ eps)
    ∧ (∀ m, calculate_savi c = .ok m → (∀ i j, i < c.h → j < c.w → c.data i j 53 = c.data i j 31) →
      ∀ i j, i < c.h → j < c.w → |m.data i j| ≤ eps)
    ∧ (∀ m, calculate_ndwi c = .ok m → (∀ i j, i < c.h → j < c.w → c.data i j 53 = c.data i j 135) →
      ∀ i j, i < c.h → j < c.w → |m.data i j| ≤ eps)
    ∧ (∀ m, calculate_ndre c = .ok m → (∀ i j, i < c.h → j < c.w → c.data i j 53 = c.data i j 38) →
      ∀ i j, i < c.h → j < c.w → |m.data i j| ≤ eps) := by
  refine ⟨?_, ?_, ?_, ?_⟩ <;>
  · intro m hm heq i j hi hj
    first
      | (unfold calculate_ndvi at hm)
      | (unfold calculate_savi at hm)
      | (unfold calculate_ndwi at hm)
      | (unfold calculate_ndre at hm)
    split at hm
    · exact absurd hm (by simp)
    · cases hm
      simp only [heq i j hi hj, sub_self, zero_div, zero_mul, abs_zero]
      exact le_of_lt eps_pos

/-- Witness cube for C9: constant data, 136 bands (enough for every index). -/
def cubeC9 : Cube := ⟨1, 1, 136, fun _ _ _ => 2⟩

/-- The NDVI map `calculate_ndvi` produces on `cubeC9`. -/
def ndviC9 : IndexMap :=
  ⟨cubeC9.h, cubeC9.w, fun i j =>
    (cubeC9.data i j 53 - cubeC9.data i j 31) / (cubeC9.data i j 53 + cubeC9.data i j 31 + eps)⟩

/-- The SAVI map `calculate_savi` produces on `cubeC9`. -/
def saviC9 : IndexMap :=
  ⟨cubeC9.h, cubeC9.w, fun i j =>
    ((cubeC9.data i j 53 - cubeC9.data i j 31) / (cubeC9.data i j 53 + cubeC9.data i j 31 + 1/2 + eps)) * (1 + 1/2)⟩

/-- The NDWI map `calculate_ndwi` produces on `cubeC9`. -/
def ndwiC9 : IndexMap :=
  ⟨cubeC9.h, cubeC9.w, fun i j =>
    (cubeC9.data i j 53 - cubeC9.data i j 135) / (cubeC9.data i j 53 + cubeC9.data i j 135 + eps)⟩

/-- The NDRE map `calculate_ndre` produces on `cubeC9`. -/
def ndreC9 : IndexMap :=
  ⟨cubeC9.h, cubeC9.w, fun i j =>
    (cubeC9.data i j 53 - cubeC9.data i j 38) / (cubeC9.data i j 53 + cubeC9.data i j 38 + eps)⟩

/-- C9 witness: on a concrete constant cube every index entry is within
`eps` of 0. -/
theorem C9_equal_bands_give_zero_index_witness :
    |ndviC9.data 0 0| ≤ eps ∧ |saviC9.data 0 0| ≤ eps
      ∧ |ndwiC9.data 0 0| ≤ eps ∧ |ndreC9.data 0 0| ≤ eps :=
  ⟨(C9_equal_bands_give_zero_index cubeC9).1 ndviC9 rfl (fun _ _ _ _ => rfl) 0 0 Nat.one_pos Nat.one_pos,
   (C9_equal_bands_give_zero_index cubeC9).2.1 saviC9 rfl (fun _ _ _ _ => rfl) 0 0 Nat.one_pos Nat.one_pos,
   (C9_equal_bands_give_zero_index cubeC9).2.2.1 ndwiC9 rfl (fun _ _ _ _ => rfl) 0 0 Nat.one_pos Nat.one_pos,
   (C9_equal_bands_give_zero_index cubeC9).2.2.2 ndreC9 rfl (fun _ _ _ _ => rfl) 0 0 Nat.one_pos Nat.one_pos⟩

/-- C10 -- For every Cube with at least 54 bands whose values at bands 31
and 53 are all nonnegative, every NDVI entry lies strictly inside (-1, 1):
the denominator `NIR + Red + eps` is strictly positive and strictly
exceeds `|NIR - Red|`. -/
theorem C10_ndvi_strictly_inside_unit_interval (c : Cube) (hb : 54 ≤ c.bands)
    (hpos : ∀ i j, i < c.h → j < c.w → 0 ≤ c.data i j 31 ∧ 0 ≤ c.data i j 53)
    (m : IndexMap) (hm : calculate_ndvi c = .ok m) :
    ∀ i j, i < c.h → j < c.w →
      0 < c.data i j 53 + c.data i j 31 + eps
      ∧ |c.data i j 53 - c.data i j 31| < c.data i j 53 + c.data i j 31 + eps
      ∧ -1 < m.data i j ∧ m.data i j < 1 := by
  intro i j hi hj
  obtain ⟨hr, hn⟩ := hpos i j hi hj
  unfold calculate_ndvi at hm
  rw [if_neg (by omega)] at hm
  cases hm
  have hepos := eps_pos
  have hd : 0 < c.data i j 53 + c.data i j 31 + eps := by linarith
  refine ⟨hd, ?_, ?_, ?_⟩
  · rw [abs_sub_lt_iff]
    constructor <;> linarith
  · show -1 < (c.data i j 53 - c.data i j 31) / (c.data i j 53 + c.data i j 31 + eps)
    rw [lt_div_iff₀ hd]
    linarith
  · show (c.data i j 53 - c.data i j 31) / (c.data i j 53 + c.data i j 31 + eps) < 1
    rw [div_lt_one hd]
    linarith

/-- Witness cube for C10: all-zero data, exactly 54 bands. -/
def cubeC10 : Cube := ⟨1, 1, 54, fun _ _ _ => 0⟩

/-- The NDVI map `calculate_ndvi` produces on `cubeC10`. -/
def ndviC10 : IndexMap :=
  ⟨cubeC10.h, cubeC10.w, fun i j =>
    (cubeC10.data i j 53 - cubeC10.data i j 31) / (cubeC10.data i j 53 + cubeC10.data i j 31 + eps)⟩

/-- C10 witness: on a concrete all-zero 54-band cube the NDVI entry at
(0, 0) is strictly inside (-1, 1). -/
theorem C10_ndvi_strictly_inside_unit_interval_witness :
    0 < cubeC10.data 0 0 53 + cubeC10.data 0 0 31 + eps
    ∧ |cubeC10.data 0 0 53 - cubeC10.data 0 0 31| < cubeC10.data 0 0 53 + cubeC10.data 0 0 31 + eps
    ∧ -1 < ndviC10.data 0 0 ∧ ndviC10.data 0 0 < 1 :=
  C10_ndvi_strictly_inside_unit_interval cubeC10 (le_refl 54)
    (fun _ _ _ _ => ⟨le_refl 0, le_refl 0⟩) ndviC10 rfl 0 0 Nat.one_pos Nat.one_pos

/-! ## classification.py

`classify_pixels(data_cube, ground_truth)` flattens the cube to an
`(h*w, bands)` feature table `X` and the ground truth to a vector `y`,
filters out label 0, returns `(None, None)` when nothing is labeled,
splits, trains a random forest, computes metrics on the held-out part,
predicts every pixel and finally zeroes the positions where the ground
truth is 0.  The scikit-learn splitter and trainer are third-party and
are passed in as parameters `split` (which can raise, e.g. the
stratified splitter's `ValueError` on singleton classes) and `train`
(the fitted model's per-pixel predict function).  NumPy raises
`IndexError` at `X[y != 0]` when `len(y) ≠ h*w`, and at
`classification_map[ground_truth == 0] = 0` when the 2-D shape of the
ground truth differs from `(h, w)`; both are reproduced at the exact
program points where they occur.  There is no other shape check. -/

/-- `data_cube.reshape((h*w, bands))`: row-major list of per-pixel
feature vectors. -/
def flattenCube (c : Cube) : List (List ℚ) :=
  (List.range (c.h * c.w)).map (fun k =>
    (List.range c.bands).map (fun b => c.data (k / c.w) (k % c.w) b))

/-- `ground_truth.ravel()`: row-major list of labels. -/
def ravel (g : LabelMap) : List ℕ :=
  (List.range (g.h * g.w)).map (fun k => g.data (k / g.w) (k % g.w))

/-- `X[y != 0]` zipped with `y[y != 0]`: the labeled pixel table. -/
def labeledOf (c : Cube) (g : LabelMap) : List (List ℚ × ℕ) :=
  ((flattenCube c).zip (ravel g)).filter (fun p => p.2 != 0)

/-- A row of labeled samples: features paired with labels. -/
abbrev Samples := List (List ℚ × ℕ)

/-- `sklearn.metrics.accuracy_score`: fraction of positions where the
prediction equals the true label. -/
def accuracy_score (yTrue yPred : List ℕ) : ℚ :=
  (((yTrue.zip yPred).countP (fun p => p.1 == p.2) : ℕ) : ℚ) / (yTrue.length : ℚ)

/-- Insert into a strictly sorted list, skipping duplicates. -/
def sortedInsert (a : ℕ) : List ℕ → List ℕ
  | [] => [a]
  | b :: t => if a < b then a :: b :: t else if a = b then b :: t else b :: sortedInsert a t

/-- `numpy.unique`: the distinct values of a list, sorted ascending. -/
def sortedUnique (l : List ℕ) : List ℕ := l.foldr sortedInsert []

/-- Number of positions where the true label is `a` and the prediction
is `b`. -/
def pairCount (yTrue yPred : List ℕ) (a b : ℕ) : ℕ :=
  (yTrue.zip yPred).countP (fun p => p.1 == a && p.2 == b)

/-- Confusion matrix over an explicit label axis: entry `(i, j)` counts
samples with true label `labels[i]` and predicted label `labels[j]`. -/
def confusionMatrixOver (labels yTrue yPred : List ℕ) : List (List ℕ) :=
  labels.map (fun a => labels.map (fun b => pairCount yTrue yPred a b))

/-- `sklearn.metrics.confusion_matrix`: label axis is the ascending
sorted set of values occurring in `y_true` or `y_pred`. -/
def confusion_matrix (yTrue yPred : List ℕ) : List (List ℕ) :=
  confusionMatrixOver (sortedUnique (yTrue ++ yPred)) yTrue yPred

/-- Per-class precision `TP / (TP + FP)`, 0 when the class is never
predicted (scikit-learn's zero-division default). -/
def precClass (yTrue yPred : List ℕ) (l : ℕ) : ℚ :=
  if yPred.count l = 0 then 0
  else (pairCount yTrue yPred l l : ℚ) / (yPred.count l : ℚ)

/-- Per-class recall `TP / (TP + FN)`, 0 when the class has no true
samples. -/
def recallClass (yTrue yPred : List ℕ) (l : ℕ) : ℚ :=
  if yTrue.count l = 0 then 0
  else (pairCount yTrue yPred l l : ℚ) / (yTrue.count l : ℚ)

/-- `precision_score(..., average='weighted')`: class-support-weighted
mean of per-class precision. -/
def precision_score (yTrue yPred : List ℕ) : ℚ :=
  ((sortedUnique (yTrue ++ yPred)).map
    (fun l => (yTrue.count l : ℚ) * precClass yTrue yPred l)).sum / (yTrue.length : ℚ)

/-- `recall_score(..., average='weighted')`: class-support-weighted mean
of per-class recall. -/
def recall_score (yTrue yPred : List ℕ) : ℚ :=
  ((sortedUnique (yTrue ++ yPred)).map
    (fun l => (yTrue.count l : ℚ) * recallClass yTrue yPred l)).sum / (yTrue.length : ℚ)

/-- The metrics record built on the held-out test split. -/
structure Metrics where
  overall_accuracy : ℚ
  weighted_precision : ℚ
  weighted_recall : ℚ
  confusion_matrix : List (List ℕ)
deriving DecidableEq, Repr

/-- `classify_pixels` from `classification.py`.  `split` abstracts
`train_test_split(..., test_size=0.3, random_state=42, stratify=...)`
(it may raise); `train` abstracts `RandomForestClassifier(...).fit`
composed with `.predict` on a single feature vector. -/
def classify_pixels
    (split : Samples → Except PyErr (Samples × Samples))
    (train : Samples → List ℚ → ℕ)
    (c : Cube) (g : LabelMap) : Except PyErr (Option (ClassMap × Metrics)) :=
  let X := flattenCube c
  if (ravel g).length ≠ X.length then .error .indexError
  else
    let labeled := labeledOf c g
    if labeled.length = 0 then .ok none
    else
      match split labeled with
      | .error e => .error e
      | .ok (trainSet, testSet) =>
        let model := train trainSet
        let yTest := testSet.map (fun p => p.2)
        let yPredTest := testSet.map (fun p => model p.1)
        let metrics : Metrics :=
          ⟨accuracy_score yTest yPredTest, precision_score yTest yPredTest,
           recall_score yTest yPredTest, confusion_matrix yTest yPredTest⟩
        let yPredFull := X.map model
        if g.h ≠ c.h ∨ g.w ≠ c.w then .error .indexError
        else .ok (some (⟨c.h, c.w, fun i j =>
          if g.data i j = 0 then 0 else yPredFull.getD (i * c.w + j) 0⟩, metrics))

/-- C1 -- Whenever `classify_pixels` succeeds with a map, the map's
spatial shape equals the LabelMap's shape, and every position whose
label is 0 is forced to 0 in the output, regardless of what the trained
model predicted there. -/
theorem C1_background_forced_to_zero
    (split : Samples → Except PyErr (Samples × Samples))
    (train : Samples → List ℚ → ℕ) (c : Cube) (g : LabelMap)
    (m : ClassMap) (mets : Metrics)
    (hres : classify_pixels split train c g = .ok (some (m, mets))) :
    (m.h = g.h ∧ m.w = g.w) ∧ ∀ i j, g.data i j = 0 → m.data i j = 0 := by
  simp only [classify_pixels] at hres
  split at hres
  · exact absurd hres (by simp)
  split at hres
  · exact absurd hres (by simp)
  rcases hs : split (labeledOf c g) with e | ⟨trainSet, testSet⟩ <;> rw [hs] at hres
  · exact absurd hres (by simp)
  simp only at hres
  split at hres
  · exact absurd hres (by simp)
  rename_i hshape
  push_neg at hshape
  injection hres with hres
  injection hres with hres
  injection hres with hmap hmets
  subst hmap
  exact ⟨⟨hshape.1.symm, hshape.2.symm⟩, fun i j hz => by simp [hz]⟩

/-- Splitter used in witnesses: puts every labeled sample in both the
train and the test part (and never raises). -/
def splitW : Samples → Except PyErr (Samples × Samples) := fun l => .ok (l, l)

/-- Trainer used in witnesses: the constant predictor `1`. -/
def trainW : Samples → List ℚ → ℕ := fun _ _ => 1

/-- Witness cube for C1: 1x2 spatial grid, one band, constant value. -/
def cubeC1 : Cube := ⟨1, 2, 1, fun _ _ _ => 1⟩

/-- Witness label map for C1: pixel (0,0) unlabeled, pixel (0,1) class 1. -/
def gtC1 : LabelMap := ⟨1, 2, fun _ j => if j = 0 then 0 else 1⟩

/-- The classification map `classify_pixels` produces in the C1 witness. -/
def mapC1 : ClassMap :=
  ⟨cubeC1.h, cubeC1.w, fun i j =>
    if gtC1.data i j = 0 then 0
    else ((flattenCube cubeC1).map (trainW (labeledOf cubeC1 gtC1))).getD (i * cubeC1.w + j) 0⟩

/-- The metrics record `classify_pixels` produces in the C1 witness. -/
def metsC1 : Metrics :=
  ⟨accuracy_score ((labeledOf cubeC1 gtC1).map (fun p => p.2))
      ((labeledOf cubeC1 gtC1).map (fun p => trainW (labeledOf cubeC1 gtC1) p.1)),
   precision_score ((labeledOf cubeC1 gtC1).map (fun p => p.2))
      ((labeledOf cubeC1 gtC1).map (fun p => trainW (labeledOf cubeC1 gtC1) p.1)),
   recall_score ((labeledOf cubeC1 gtC1).map (fun p => p.2))
      ((labeledOf cubeC1 gtC1).map (fun p => trainW (labeledOf cubeC1 gtC1) p.1)),
   confusion_matrix ((labeledOf cubeC1 gtC1).map (fun p => p.2))
      ((labeledOf cubeC1 gtC1).map (fun p => trainW (labeledOf cubeC1 gtC1) p.1))⟩

/-- C1 witness: a concrete successful run keeps the label-0 pixel at 0
and matches the LabelMap's shape. -/
theorem C1_background_forced_to_zero_witness :
    (mapC1.h = gtC1.h ∧ mapC1.w = gtC1.w) ∧ ∀ i j, gtC1.data i j = 0 → mapC1.data i j = 0 :=
  C1_background_forced_to_zero splitW trainW cubeC1 gtC1 mapC1 metsC1 rfl

/-- Witness cube for C2: 1x2 spatial grid, one band. -/
def cubeC2 : Cube := ⟨1, 2, 1, fun _ _ _ => 1⟩

/-- Mismatched label map for C2: 2x1 (transposed shape, same element
count), all pixels unlabeled. -/
def gtC2 : LabelMap := ⟨2, 1, fun _ _ => 0⟩

/-- C2 counterexample: a Cube/LabelMap pair whose spatial dimensions
disagree on which `classify_pixels` does NOT fail at all: the flattened
sizes coincide and every label is 0, so it returns the recoverable
`(None, None)` signal.  Hence there is no ShapeMismatch check performed
before any per-pixel work. -/
theorem C2_counterexample_mismatch_not_rejected :
    ¬(gtC2.h = cubeC2.h ∧ gtC2.w = cubeC2.w)
      ∧ classify_pixels splitW trainW cubeC2 gtC2 = .ok none :=
  ⟨by decide, rfl⟩

/-- C2 (amended) -- `classify_pixels` performs no up-front shape check
and has no dedicated ShapeMismatch error.  With mismatched spatial
shapes it raises an error only when execution reaches an indexing step:
when the flattened label count differs from `h*w` (the boolean-mask
filter raises before any training), or when some nonzero label exists
(the run proceeds through training, evaluation and full-cube prediction
and only the final masking step raises); with equal flattened sizes and
all labels zero it instead returns the `(None, None)` signal. -/
theorem C2_mismatch_raises_only_at_indexing_steps
    (split : Samples → Except PyErr (Samples × Samples))
    (train : Samples → List ℚ → ℕ) (c : Cube) (g : LabelMap)
    (hmis : g.h ≠ c.h ∨ g.w ≠ c.w)
    (hreach : (ravel g).length ≠ (flattenCube c).length ∨ labeledOf c g ≠ []) :
    ∃ e, classify_pixels split train c g = .error e := by
  simp only [classify_pixels]
  by_cases h1 : (ravel g).length ≠ (flattenCube c).length
  · rw [if_pos h1]
    exact ⟨_, rfl⟩
  · have h2 : labeledOf c g ≠ [] := by tauto
    rw [if_neg h1, if_neg (by simpa using h2)]
    rcases hs : split (labeledOf c g) with e | ⟨trainSet, testSet⟩
    · exact ⟨e, rfl⟩
    · exact ⟨.indexError, if_pos hmis⟩

/-- Mismatched label map for the C2 witness: 2x1 with a nonzero label,
so the labeled set is nonempty and the amended statement applies. -/
def gtC2b : LabelMap := ⟨2, 1, fun _ _ => 3⟩

/-- C2 witness: on a concrete mismatched pair with a nonzero label,
`classify_pixels` raises. -/
theorem C2_mismatch_raises_only_at_indexing_steps_witness :
    (gtC2b.h ≠ cubeC2.h ∨ gtC2b.w ≠ cubeC2.w)
      ∧ ∃ e, classify_pixels splitW trainW cubeC2 gtC2b = .error e :=
  ⟨by decide,
   C2_mismatch_raises_only_at_indexing_steps splitW trainW cubeC2 gtC2b
     (by decide) (Or.inr (by decide))⟩

/-- C8 -- If the Cube and LabelMap have the same spatial shape and no
pixel carries a nonzero label, `classify_pixels` returns the explicit
no-result signal `(None, None)` (here `.ok none`) without raising. -/
theorem C8_no_labels_gives_none
    (split : Samples → Except PyErr (Samples × Samples))
    (train : Samples → List ℚ → ℕ) (c : Cube) (g : LabelMap)
    (hh : g.h = c.h) (hw : g.w = c.w)
    (hz : ∀ i j, i < g.h → j < g.w → g.data i j = 0) :
    classify_pixels split train c g = .ok none := by
  have hylen : (ravel g).length = (flattenCube c).length := by
    simp [ravel, flattenCube, hh, hw]
  have hmem : ∀ p ∈ (flattenCube c).zip (ravel g), p.2 = 0 := by
    rintro ⟨x, v⟩ hp
    obtain ⟨-, hv⟩ := List.of_mem_zip hp
    simp only [ravel, List.mem_map, List.mem_range] at hv
    obtain ⟨k, hk, rfl⟩ := hv
    rcases Nat.eq_zero_or_pos g.w with hw0 | hw0
    · rw [hw0, Nat.mul_zero] at hk
      exact absurd hk (Nat.not_lt_zero k)
    · have hk' : k < g.w * g.h := by rw [Nat.mul_comm]; exact hk
      exact hz _ _ (Nat.div_lt_of_lt_mul hk') (Nat.mod_lt _ hw0)
  have hlab : labeledOf c g = [] := by
    rw [labeledOf, List.filter_eq_nil_iff]
    intro p hp
    simp [hmem p hp]
  simp only [classify_pixels]
  rw [if_neg (by omega), hlab]
  simp

/-- Witness cube for C8: 1x1 spatial grid. -/
def cubeC8 : Cube := ⟨1, 1, 1, fun _ _ _ => 1⟩

/-- Witness label map for C8: everything unlabeled. -/
def gtC8 : LabelMap := ⟨1, 1, fun _ _ => 0⟩

/-- C8 witness: a concrete all-unlabeled run returns the no-result
signal. -/
theorem C8_no_labels_gives_none_witness :
    classify_pixels splitW trainW cubeC8 gtC8 = .ok none :=
  C8_no_labels_gives_none splitW trainW cubeC8 gtC8 rfl rfl (fun _ _ _ _ => rfl)

/-! ### Properties of the sorted distinct-label axis -/

theorem mem_sortedInsert (a x : ℕ) (l : List ℕ) :
    x ∈ sortedInsert a l ↔ x = a ∨ x ∈ l := by
  induction l with
  | nil => simp [sortedInsert]
  | cons b t ih =>
    simp only [sortedInsert]
    split
    · simp [List.mem_cons]
    · split
      · rename_i hab
        simp [List.mem_cons, hab]
      · simp [List.mem_cons, ih]
        tauto

theorem sorted_sortedInsert (a : ℕ) (l : List ℕ) (h : l.Sorted (· < ·)) :
    (sortedInsert a l).Sorted (· < ·) := by
  induction l with
  | nil => simp [sortedInsert]
  | cons b t ih =>
    rw [List.sorted_cons] at h
    obtain ⟨hb, ht⟩ := h
    simp only [sortedInsert]
    split
    · rename_i hab
      rw [List.sorted_cons]
      refine ⟨?_, by rw [List.sorted_cons]; exact ⟨hb, ht⟩⟩
      intro x hx
      rcases List.mem_cons.mp hx with rfl | hxt
      · exact hab
      · exact hab.trans (hb x hxt)
    · split
      · rw [List.sorted_cons]
        exact ⟨hb, ht⟩
      · rename_i hnlt hne
        rw [List.sorted_cons]
        refine ⟨?_, ih ht⟩
        intro x hx
        rcases (mem_sortedInsert a x t).mp hx with rfl | hxt
        · omega
        · exact hb x hxt

theorem sortedUnique_cons (a : ℕ) (t : List ℕ) :
    sortedUnique (a :: t) = sortedInsert a (sortedUnique t) := rfl

theorem sortedUnique_sorted (l : List ℕ) : (sortedUnique l).Sorted (· < ·) := by
  induction l with
  | nil => exact List.sorted_nil
  | cons a t ih =>
    rw [sortedUnique_cons]
    exact sorted_sortedInsert a _ ih

theorem mem_sortedUnique (l : List ℕ) (x : ℕ) : x ∈ sortedUnique l ↔ x ∈ l := by
  induction l with
  | nil => simp [sortedUnique]
  | cons a t ih =>
    rw [sortedUnique_cons, mem_sortedInsert, ih, List.mem_cons]

/-- When every predicted label already occurs among the true labels, the
scikit-learn label axis (union of both) collapses to the sorted distinct
true labels. -/
theorem sortedUnique_append_of_subset (l₁ l₂ : List ℕ) (h : ∀ x ∈ l₂, x ∈ l₁) :
    sortedUnique (l₁ ++ l₂) = sortedUnique l₁ := by
  have h₁ := sortedUnique_sorted (l₁ ++ l₂)
  have h₂ := sortedUnique_sorted l₁
  have hm : ∀ x, x ∈ sortedUnique (l₁ ++ l₂) ↔ x ∈ sortedUnique l₁ := by
    intro x
    rw [mem_sortedUnique, mem_sortedUnique, List.mem_append]
    constructor
    · rintro (hx | hx)
      · exact hx
      · exact h x hx
    · exact Or.inl
  have hperm := (List.perm_ext_iff_of_nodup h₁.nodup h₂.nodup).mpr hm
  exact List.eq_of_perm_of_sorted hperm
    (List.Pairwise.imp (fun hlt => le_of_lt hlt) h₁)
    (List.Pairwise.imp (fun hlt => le_of_lt hlt) h₂)

/-- C4 -- In every evaluation `classify_pixels` performs, provided every
label the trained model predicts on the test features also occurs among
the test labels (which the stratified split plus a forest that predicts
only seen classes guarantee for the real pipeline), the confusion matrix
is square with dimension the number of distinct labels in the held-out
test partition, its axis being those distinct labels sorted ascending. -/
theorem C4_confusion_matrix_square_over_test_labels
    (split : Samples → Except PyErr (Samples × Samples))
    (train : Samples → List ℚ → ℕ) (c : Cube) (g : LabelMap)
    (m : ClassMap) (mets : Metrics) (trainSet testSet : Samples)
    (hres : classify_pixels split train c g = .ok (some (m, mets)))
    (hsplit : split (labeledOf c g) = .ok (trainSet, testSet))
    (hsub : ∀ l ∈ testSet.map (fun p => train trainSet p.1),
      l ∈ testSet.map (fun p => p.2)) :
    mets.confusion_matrix
        = confusionMatrixOver (sortedUnique (testSet.map (fun p => p.2)))
            (testSet.map (fun p => p.2)) (testSet.map (fun p => train trainSet p.1))
      ∧ mets.confusion_matrix.length = (sortedUnique (testSet.map (fun p => p.2))).length
      ∧ (∀ row ∈ mets.confusion_matrix,
          row.length = (sortedUnique (testSet.map (fun p => p.2))).length)
      ∧ (sortedUnique (testSet.map (fun p => p.2))).Sorted (· < ·) := by
  simp only [classify_pixels] at hres
  split at hres
  · exact absurd hres (by simp)
  split at hres
  · exact absurd hres (by simp)
  rw [hsplit] at hres
  simp only at hres
  split at hres
  · exact absurd hres (by simp)
  injection hres with hres
  injection hres with hres
  injection hres with hmap hmets
  subst hmets
  have hcm : (confusion_matrix (testSet.map (fun p => p.2))
      (testSet.map (fun p => train trainSet p.1)))
      = confusionMatrixOver (sortedUnique (testSet.map (fun p => p.2)))
          (testSet.map (fun p => p.2)) (testSet.map (fun p => train trainSet p.1)) := by
    rw [confusion_matrix, sortedUnique_append_of_subset _ _ hsub]
  refine ⟨hcm, ?_, ?_, sortedUnique_sorted _⟩
  · rw [hcm]
    simp [confusionMatrixOver]
  · rw [hcm]
    intro row hrow
    simp only [confusionMatrixOver, List.mem_map] at hrow
    obtain ⟨a, ha, rfl⟩ := hrow
    simp

/-- Witness cube for C4: 1x2 spatial grid, one band, constant value. -/
def cubeC4 : Cube := ⟨1, 2, 1, fun _ _ _ => 1⟩

/-- Witness label map for C4: labels 1 and 2. -/
def gtC4 : LabelMap := ⟨1, 2, fun _ j => j + 1⟩

/-- The classification map `classify_pixels` produces in the C4 witness. -/
def mapC4 : ClassMap :=
  ⟨cubeC4.h, cubeC4.w, fun i j =>
    if gtC4.data i j = 0 then 0
    else ((flattenCube cubeC4).map (trainW (labeledOf cubeC4 gtC4))).getD (i * cubeC4.w + j) 0⟩

/-- The metrics record `classify_pixels` produces in the C4 witness. -/
def metsC4 : Metrics :=
  ⟨accuracy_score ((labeledOf cubeC4 gtC4).map (fun p => p.2))
      ((labeledOf cubeC4 gtC4).map (fun p => trainW (labeledOf cubeC4 gtC4) p.1)),
   precision_score ((labeledOf cubeC4 gtC4).map (fun p => p.2))
      ((labeledOf cubeC4 gtC4).map (fun p => trainW (labeledOf cubeC4 gtC4) p.1)),
   recall_score ((labeledOf cubeC4 gtC4).map (fun p => p.2))
      ((labeledOf cubeC4 gtC4).map (fun p => trainW (labeledOf cubeC4 gtC4) p.1)),
   confusion_matrix ((labeledOf cubeC4 gtC4).map (fun p => p.2))
      ((labeledOf cubeC4 gtC4).map (fun p => trainW (labeledOf cubeC4 gtC4) p.1))⟩

/-- C4 witness: a concrete successful run whose confusion matrix axis is
the ascending distinct test labels. -/
theorem C4_confusion_matrix_square_over_test_labels_witness :
    metsC4.confusion_matrix
        = confusionMatrixOver (sortedUnique ((labeledOf cubeC4 gtC4).map (fun p => p.2)))
            ((labeledOf cubeC4 gtC4).map (fun p => p.2))
            ((labeledOf cubeC4 gtC4).map (fun p => trainW (labeledOf cubeC4 gtC4) p.1))
      ∧ metsC4.confusion_matrix.length
          = (sortedUnique ((labeledOf cubeC4 gtC4).map (fun p => p.2))).length
      ∧ (∀ row ∈ metsC4.confusion_matrix,
          row.length = (sortedUnique ((labeledOf cubeC4 gtC4).map (fun p => p.2))).length)
      ∧ (sortedUnique ((labeledOf cubeC4 gtC4).map (fun p => p.2))).Sorted (· < ·) :=
  C4_confusion_matrix_square_over_test_labels splitW trainW cubeC4 gtC4
    mapC4 metsC4 (labeledOf cubeC4 gtC4) (labeledOf cubeC4 gtC4) rfl rfl (by decide)

/-! ## temporal.py — simulate_ndvi_time_series

`simulate_ndvi_time_series(data_cube, ground_truth, field_class=1,
num_steps=13)` selects the pixels of the requested class (falling back
to class 1, then raising `ValueError` — the spec's `DataUnavailable`),
averages the NDVI over them, builds the parabolic seasonal shape
`-0.8*x**2 + 1` over `linspace(-1, 1, num_steps)`, rescales it by
`min_ndvi + shape * (max_ndvi - min_ndvi)` with `min_ndvi = 0.5*avg`
and `max_ndvi = 1.8*avg`, adds noise, clips to `[0, 1]` and attaches
dates spaced 14 days from 2023-01-01.  The Gaussian noise draw
`np.random.normal(0, 0.02, num_steps)` is abstracted as the parameter
`noise`; dates are day counts with `refDate` the day number of the fixed
reference date 2023-01-01. -/

/-- `np.where(ground_truth == cls)`: row-major coordinates of the pixels
of class `cls`. -/
def pixelsOf (g : LabelMap) (cls : ℕ) : List (ℕ × ℕ) :=
  (List.range g.h).flatMap (fun i =>
    ((List.range g.w).filter (fun j => g.data i j == cls)).map (fun j => (i, j)))

/-- Lines 20-26 of `temporal.py`: target-class pixels, else class-1
pixels, else the explicit `ValueError` raise. -/
def selectFieldPixels (g : LabelMap) (cls : ℕ) : Except PyErr (List (ℕ × ℕ)) :=
  let p := pixelsOf g cls
  if p.length = 0 then
    let q := pixelsOf g 1
    if q.length = 0 then .error .valueError else .ok q
  else .ok p

/-- `np.mean` of a list of values. -/
def meanQ (l : List ℚ) : ℚ := l.sum / (l.length : ℚ)

/-- `np.linspace(a, b, n)`. -/
def linspace (a b : ℚ) (n : ℕ) : List ℚ :=
  if n ≤ 1 then (List.range n).map (fun _ => a)
  else (List.range n).map (fun i => a + (b - a) * (i : ℚ) / ((n : ℚ) - 1))

/-- `seasonal_curve = -0.8 * (x**2) + 1` over `linspace(-1, 1, n)`. -/
def seasonalShape (n : ℕ) : List ℚ :=
  (linspace (-1) 1 n).map (fun x => -(4/5) * x ^ 2 + 1)

/-- `min_ndvi + shape_value * (max_ndvi - min_ndvi)` with
`min_ndvi = avg * 0.5` and `max_ndvi = avg * 1.8`. -/
def rescaleVal (avg s : ℚ) : ℚ := avg * (1/2) + s * (avg * (9/5) - avg * (1/2))

/-- The rescaled seasonal curve (`scaled_curve` in the source), before
noise and clipping. -/
def scaledCurve (avg : ℚ) (n : ℕ) : List ℚ :=
  (seasonalShape n).map (rescaleVal avg)

/-- `np.clip(v, 0, 1)`. -/
def clip01 (x : ℚ) : ℚ := min (max x 0) 1

theorem clip01_nonneg (x : ℚ) : 0 ≤ clip01 x :=
  le_min (le_max_right x 0) (by norm_num)

theorem clip01_le_one (x : ℚ) : clip01 x ≤ 1 := min_le_right _ 1

/-- One record of the produced TimeSeries: a date (counted in days from
the fixed reference date 2023-01-01) and an index value. -/
structure TSRecord where
  date : ℕ
  ndvi : ℚ
deriving DecidableEq, Repr

/-- Default record used with `List.getD`. -/
def tsDefault : TSRecord := ⟨0, 0⟩

/-- Day number of the fixed reference date 2023-01-01
(`pd.date_range(start='2023-01-01', ...)`). -/
def refDate : ℕ := 0

/-- `simulate_ndvi_time_series` from `temporal.py`. -/
def simulate_ndvi_time_series (noise : ℕ → ℚ) (c : Cube) (g : LabelMap)
    (field_class : ℕ) (num_steps : ℕ) : Except PyErr (List TSRecord) :=
  match selectFieldPixels g field_class with
  | .error e => .error e
  | .ok px =>
    match calculate_ndvi c with
    | .error e => .error e
    | .ok m =>
      let avg := meanQ (px.map (fun p => m.data p.1 p.2))
      .ok ((List.range num_steps).map (fun i =>
        ⟨refDate + 14 * i, clip01 ((scaledCurve avg num_steps).getD i 0 + noise i)⟩))

/-- C7 -- If no pixel has the requested class, the simulator falls back
to the pixels of class 1; if class 1 also has no pixels, it raises the
explicit `ValueError` (the spec's `DataUnavailable`) instead of
returning a silent empty value. -/
theorem C7_fallback_to_class_one_else_error
    (noise : ℕ → ℚ) (c : Cube) (g : LabelMap) (cls n : ℕ)
    (habs : pixelsOf g cls = []) :
    (pixelsOf g 1 ≠ [] → selectFieldPixels g cls = .ok (pixelsOf g 1))
    ∧ (pixelsOf g 1 = [] →
        simulate_ndvi_time_series noise c g cls n = .error .valueError) := by
  constructor
  · intro h1
    simp [selectFieldPixels, habs, List.length_eq_zero, h1]
  · intro h0
    have hsel : selectFieldPixels g cls = .error .valueError := by
      simp [selectFieldPixels, habs, h0]
    simp [simulate_ndvi_time_series, hsel]

/-- Witness label map for C7: single pixel of class 7, so neither the
requested class 5 nor the fallback class 1 is present. -/
def gtC7 : LabelMap := ⟨1, 1, fun _ _ => 7⟩

/-- Witness cube for C7 (never reached: selection fails first). -/
def cubeC7 : Cube := ⟨1, 1, 54, fun _ _ _ => 1⟩

/-- Zero noise source used in witnesses. -/
def noise0 : ℕ → ℚ := fun _ => 0

/-- C7 witness: with class 5 and class 1 both absent, the simulator
raises the explicit error. -/
theorem C7_fallback_to_class_one_else_error_witness :
    simulate_ndvi_time_series noise0 cubeC7 gtC7 5 13 = .error .valueError :=
  (C7_fallback_to_class_one_else_error noise0 cubeC7 gtC7 5 13 (by decide)).2 (by decide)

/-- C5 -- Every successful `simulate_ndvi_time_series` run with
`num_steps = 13` yields exactly 13 records, timestamps starting at the
fixed reference date and strictly increasing in exact 14-day steps, and
every index value clipped into `[0, 1]`. -/
theorem C5_thirteen_records_14_day_steps_unit_range
    (noise : ℕ → ℚ) (c : Cube) (g : LabelMap) (cls : ℕ) (ts : List TSRecord)
    (hres : simulate_ndvi_time_series noise c g cls 13 = .ok ts) :
    ts.length = 13
    ∧ (∀ k, k < 13 → (ts.getD k tsDefault).date = refDate + 14 * k)
    ∧ (∀ k, k + 1 < 13 →
        (ts.getD k tsDefault).date < (ts.getD (k + 1) tsDefault).date
        ∧ (ts.getD (k + 1) tsDefault).date = (ts.getD k tsDefault).date + 14)
    ∧ (∀ r ∈ ts, 0 ≤ r.ndvi ∧ r.ndvi ≤ 1) := by
  unfold simulate_ndvi_time_series at hres
  rcases hsel : selectFieldPixels g cls with e | px <;> rw [hsel] at hres
  · exact absurd hres (by simp)
  rcases hndvi : calculate_ndvi c with e | m <;> rw [hndvi] at hres
  · exact absurd hres (by simp)
  simp only at hres
  injection hres with hres
  subst hres
  have hget : ∀ k, k < 13 →
      (((List.range 13).map (fun i => (⟨refDate + 14 * i,
          clip01 ((scaledCurve (meanQ (px.map (fun p => m.data p.1 p.2))) 13).getD i 0 + noise i)⟩ : TSRecord))).getD k tsDefault)
        = ⟨refDate + 14 * k,
            clip01 ((scaledCurve (meanQ (px.map (fun p => m.data p.1 p.2))) 13).getD k 0 + noise k)⟩ := by
    intro k hk
    simp [List.getD_eq_getElem?_getD, List.getElem?_map, List.getElem?_range, hk]
  refine ⟨by simp, ?_, ?_, ?_⟩
  · intro k hk
    rw [hget k hk]
  · intro k hk
    rw [hget k (by omega), hget (k + 1) (by omega)]
    constructor
    · simp only
      omega
    · simp only
      omega
  · intro r hr
    simp only [List.mem_map, List.mem_range] at hr
    obtain ⟨i, hi, rfl⟩ := hr
    exact ⟨clip01_nonneg _, clip01_le_one _⟩

/-- Witness cube for C5: one pixel, 54 constant bands (NDVI is 0). -/
def cubeC5 : Cube := ⟨1, 1, 54, fun _ _ _ => 1⟩

/-- Witness label map for C5: the single pixel has class 1. -/
def gtC5 : LabelMap := ⟨1, 1, fun _ _ => 1⟩

/-- The NDVI map `calculate_ndvi` produces on `cubeC5`. -/
def ndviC5 : IndexMap :=
  ⟨cubeC5.h, cubeC5.w, fun i j =>
    (cubeC5.data i j 53 - cubeC5.data i j 31) / (cubeC5.data i j 53 + cubeC5.data i j 31 + eps)⟩

/-- The TimeSeries `simulate_ndvi_time_series` produces in the C5
witness. -/
def tsC5 : List TSRecord :=
  (List.range 13).map (fun i =>
    ⟨refDate + 14 * i,
     clip01 ((scaledCurve (meanQ ((pixelsOf gtC5 1).map (fun p => ndviC5.data p.1 p.2))) 13).getD i 0
       + noise0 i)⟩)

/-- C5 witness: a concrete successful 13-step run satisfies the length,
date and range properties. -/
theorem C5_thirteen_records_14_day_steps_unit_range_witness :
    tsC5.length = 13
    ∧ (∀ k, k < 13 → (tsC5.getD k tsDefault).date = refDate + 14 * k)
    ∧ (∀ k, k + 1 < 13 →
        (tsC5.getD k tsDefault).date < (tsC5.getD (k + 1) tsDefault).date
        ∧ (tsC5.getD (k + 1) tsDefault).date = (tsC5.getD k tsDefault).date + 14)
    ∧ (∀ r ∈ tsC5, 0 ≤ r.ndvi ∧ r.ndvi ≤ 1) :=
  C5_thirteen_records_14_day_steps_unit_range noise0 cubeC5 gtC5 1 tsC5 rfl

/-- Witness cube for C3: one pixel whose Red band is `-eps/2`, making
the NDVI at that pixel exactly 1, so the baseline mean is exactly 1. -/
def cubeC3 : Cube :=
  ⟨1, 1, 54, fun _ _ b => if b = 31 then -(1 / 20000000000) else 1⟩

/-- Witness label map for C3: the single pixel has class 1. -/
def gtC3 : LabelMap := ⟨1, 1, fun _ _ => 1⟩

/-- C3 counterexample: on a concrete Cube/LabelMap pair whose baseline
NDVI mean is exactly 1, the minimum of the rescaled seasonal curve over
the 13 points is `0.76 * baseline`, not `0.5 * baseline`: the seasonal
shape's own minimum over the points is 0.2, not 0, so the low end
`0.5 * baseline` of the claimed span is never attained. -/
theorem C3_counterexample_min_is_not_half_baseline :
    selectFieldPixels gtC3 1 = .ok [(0, 0)]
    ∧ (calculate_ndvi cubeC3).map
        (fun m => meanQ ([((0 : ℕ), (0 : ℕ))].map (fun p => m.data p.1 p.2))) = .ok 1
    ∧ (scaledCurve 1 13).min? = some (19/25)
    ∧ (19/25 : ℚ) ≠ (1/2) * 1 := by
  refine ⟨rfl, ?_, ?_, by norm_num⟩
  · simp only [calculate_ndvi, cubeC3]
    norm_num [meanQ, eps, Except.map]
  · have hlist : scaledCurve 1 13
        = [19/25, 97/90, 301/225, 77/50, 379/225, 797/450, 9/5,
           797/450, 379/225, 77/50, 301/225, 97/90, 19/25] := by
      simp [scaledCurve, seasonalShape, linspace, List.range_succ, rescaleVal]
      norm_num
    rw [hlist]
    simp only [List.min?, List.foldl_cons, List.foldl_nil]
    norm_num [min_def]

/-- C3 (amended) -- The linear rescaling maps shape value 0 to
`0.5 * baseline` and shape value 1 to `1.8 * baseline`, exactly as the
code's formula does; but since the seasonal shape's minimum over the 13
points is 0.2 (not 0), the rescaled curve actually spans
`[0.76 * baseline, 1.8 * baseline]` for a nonnegative baseline: every
point lies in that interval and both endpoints are attained. -/
theorem C3_rescaled_curve_spans_076_to_18 (b : ℚ) (hb : 0 ≤ b) :
    rescaleVal b 0 = (1/2) * b
    ∧ rescaleVal b 1 = (9/5) * b
    ∧ (∀ s ∈ seasonalShape 13, (1/5 : ℚ) ≤ s ∧ s ≤ 1)
    ∧ (∀ v ∈ scaledCurve b 13, (19/25) * b ≤ v ∧ v ≤ (9/5) * b)
    ∧ (19/25) * b ∈ scaledCurve b 13
    ∧ (9/5) * b ∈ scaledCurve b 13 := by
  have hlist : seasonalShape 13
      = [1/5, 4/9, 29/45, 4/5, 41/45, 44/45, 1, 44/45, 41/45, 4/5, 29/45, 4/9, 1/5] := by
    simp [seasonalShape, linspace, List.range_succ]
    norm_num
  have hshape : ∀ s ∈ seasonalShape 13, (1/5 : ℚ) ≤ s ∧ s ≤ 1 := by
    rw [hlist]
    intro s hs
    simp only [List.mem_cons, List.not_mem_nil, or_false] at hs
    obtain rfl | rfl | rfl | rfl | rfl | rfl | rfl | rfl | rfl | rfl | rfl | rfl | rfl := hs <;>
      norm_num
  have hmono : ∀ s : ℚ, 1/5 ≤ s → s ≤ 1 →
      (19/25) * b ≤ rescaleVal b s ∧ rescaleVal b s ≤ (9/5) * b := by
    intro s h1 h2
    unfold rescaleVal
    constructor <;> nlinarith
  refine ⟨by unfold rescaleVal; ring, by unfold rescaleVal; ring, hshape, ?_, ?_, ?_⟩
  · intro v hv
    simp only [scaledCurve, List.mem_map] at hv
    obtain ⟨s, hs, rfl⟩ := hv
    exact hmono s (hshape s hs).1 (hshape s hs).2
  · refine List.mem_map.mpr ⟨1/5, ?_, by unfold rescaleVal; ring⟩
    rw [hlist]
    simp
  · refine List.mem_map.mpr ⟨1, ?_, by unfold rescaleVal; ring⟩
    rw [hlist]
    simp

/-- C3 witness: the amended span statement at baseline 1. -/
theorem C3_rescaled_curve_spans_076_to_18_witness :
    (0 : ℚ) ≤ 1
    ∧ (rescaleVal 1 0 = (1/2) * 1
      ∧ rescaleVal 1 1 = (9/5) * 1
      ∧ (∀ s ∈ seasonalShape 13, (1/5 : ℚ) ≤ s ∧ s ≤ 1)
      ∧ (∀ v ∈ scaledCurve 1 13, (19/25) * 1 ≤ v ∧ v ≤ (9/5) * 1)
      ∧ (19/25 : ℚ) * 1 ∈ scaledCurve 1 13
      ∧ (9/5 : ℚ) * 1 ∈ scaledCurve 1 13) :=
  ⟨by norm_num, C3_rescaled_curve_spans_076_to_18 1 (by norm_num)⟩

/-! ## temporal.py — detect_anomalies

`detect_anomalies(df, window=3, std_dev_threshold=2.0)` computes a
centered rolling mean and (sample, ddof = 1) rolling standard deviation
with `min_periods=1`, flags `|ndvi - rolling_mean| > rolling_std *
threshold`, and `fillna(False)` turns the NaN comparisons of undefined
standard deviations into `False`.  pandas' centered window for label `i`
covers indices `[i - w/2, i + (w-1)/2]` (integer division) clipped to
the series, and its sample standard deviation is NaN (here `none`)
whenever the window holds fewer than two points.  The standard deviation
is an irrational square root, so the record stores the rational
*variance* (`rolling_var`, the square of pandas' `rolling_std`) and the
flag is computed by the equivalent squared comparison `absGtSqrtMul`;
theorem `absGtSqrtMul_iff` proves this boolean equal to the real-number
comparison `|dev| > sqrt(var) * threshold` actually performed by the
source. -/

/-- The values inside pandas' centered rolling window for label `i`. -/
def windowSlice (vals : List ℚ) (w i : ℕ) : List ℚ :=
  let lo := i - w / 2
  let hi := min (i + (w - 1) / 2) (vals.length - 1)
  (List.range (hi + 1 - lo)).map (fun k => vals.getD (lo + k) 0)

/-- Sample variance (ddof = 1) of a window; `none` models the NaN that
pandas' `std` yields on fewer than two points. -/
def rollVar (l : List ℚ) : Option ℚ :=
  if l.length ≤ 1 then none
  else some ((l.map (fun x => (x - meanQ l) ^ 2)).sum / ((l.length - 1 : ℕ) : ℚ))

/-- Decides `|dev| > sqrt v * thr` inside ℚ (see `absGtSqrtMul_iff`). -/
def absGtSqrtMul (dev v thr : ℚ) : Bool :=
  if 0 ≤ thr then decide (v * thr ^ 2 < dev ^ 2)
  else if v = 0 then decide (0 < |dev|) else true

/-- One record of the annotated series: the original value plus
`rolling_mean`, the rolling variance (square of `rolling_std`; `none`
models NaN) and the `is_anomaly` flag. -/
structure AnnRecord where
  ndvi : ℚ
  rolling_mean : ℚ
  rolling_var : Option ℚ
  is_anomaly : Bool
deriving DecidableEq, Repr

/-- Default record used with `List.getD`. -/
def annDefault : AnnRecord := ⟨0, 0, none, false⟩

/-- `detect_anomalies` from `temporal.py` (pandas raises on a
non-positive rolling window). -/
def detect_anomalies (w : ℕ) (thr : ℚ) (vals : List ℚ) :
    Except PyErr (List AnnRecord) :=
  if w = 0 then .error .valueError
  else .ok ((List.range vals.length).map (fun i =>
    let win := windowSlice vals w i
    let m := meanQ win
    let v := rollVar win
    ⟨vals.getD i 0, m, v,
      match v with
      | none => false
      | some vv => absGtSqrtMul (vals.getD i 0 - m) vv thr⟩))

theorem rollVar_nonneg (l : List ℚ) (v : ℚ) (h : rollVar l = some v) : 0 ≤ v := by
  unfold rollVar at h
  split at h
  · exact absurd h (by simp)
  · injection h with h
    subst h
    apply div_nonneg
    · apply List.sum_nonneg
      intro x hx
      simp only [List.mem_map] at hx
      obtain ⟨y, hy, rfl⟩ := hx
      exact sq_nonneg _
    · exact Nat.cast_nonneg _

/-- The rational boolean `absGtSqrtMul` decides exactly the real-number
comparison `sqrt v * thr < |dev|` made by the source (where the rolling
standard deviation is `sqrt v`). -/
theorem absGtSqrtMul_iff (dev v thr : ℚ) (hv : 0 ≤ v) :
    absGtSqrtMul dev v thr = true
      ↔ Real.sqrt (v : ℝ) * (thr : ℝ) < |(dev : ℝ)| := by
  unfold absGtSqrtMul
  have hv' : (0:ℝ) ≤ (v : ℝ) := by exact_mod_cast hv
  by_cases hthr : (0:ℚ) ≤ thr
  · rw [if_pos hthr, decide_eq_true_iff]
    have hthr' : (0:ℝ) ≤ (thr : ℝ) := by exact_mod_cast hthr
    have hB : (0:ℝ) ≤ Real.sqrt (v : ℝ) * (thr : ℝ) :=
      mul_nonneg (Real.sqrt_nonneg _) hthr'
    have hA : (0:ℝ) ≤ |(dev : ℝ)| := abs_nonneg _
    have hpow : (Real.sqrt (v : ℝ) * (thr : ℝ)) ^ 2 = (v : ℝ) * (thr : ℝ) ^ 2 := by
      rw [mul_pow, Real.sq_sqrt hv']
    constructor
    · intro h
      have h' : ((v : ℝ)) * (thr : ℝ) ^ 2 < ((dev : ℝ)) ^ 2 := by exact_mod_cast h
      refine (pow_lt_pow_iff_left₀ hB hA two_ne_zero).mp ?_
      rw [hpow, sq_abs]
      exact h'
    · intro h
      have hsq := (pow_lt_pow_iff_left₀ hB hA two_ne_zero).mpr h
      rw [hpow, sq_abs] at hsq
      exact_mod_cast hsq
  · rw [if_neg hthr]
    have hthr' : (thr : ℝ) < 0 := by exact_mod_cast not_le.mp hthr
    by_cases hv0 : v = 0
    · rw [if_pos hv0, decide_eq_true_iff]
      subst hv0
      rw [Rat.cast_zero, Real.sqrt_zero, zero_mul]
      constructor
      · intro h
        exact_mod_cast h
      · intro h
        exact_mod_cast h
    · rw [if_neg hv0]
      have hsv : 0 < Real.sqrt (v : ℝ) :=
        Real.sqrt_pos.mpr (lt_of_le_of_ne hv' (by exact_mod_cast Ne.symm hv0))
      constructor
      · intro _
        exact lt_of_lt_of_le (mul_neg_of_pos_of_neg hsv hthr') (abs_nonneg _)
      · intro _
        rfl

/-- C6 -- `detect_anomalies` flags position `i` exactly when the absolute
deviation of its value from its centered rolling mean (given window,
min_periods 1) exceeds the rolling standard deviation times the
threshold, and a position whose rolling standard deviation is undefined
(window with fewer than two points) is flagged `false`, never left
undefined. -/
theorem C6_anomaly_iff_deviation_exceeds_scaled_std
    (w : ℕ) (thr : ℚ) (vals : List ℚ) (ann : List AnnRecord)
    (hres : detect_anomalies w thr vals = .ok ann)
    (i : ℕ) (hi : i < ann.length) :
    (ann.getD i annDefault).is_anomaly = true
      ↔ ∃ v, (ann.getD i annDefault).rolling_var = some v
          ∧ Real.sqrt (v : ℝ) * (thr : ℝ)
              < |((ann.getD i annDefault).ndvi : ℝ)
                  - ((ann.getD i annDefault).rolling_mean : ℝ)| := by
  unfold detect_anomalies at hres
  split at hres
  · exact absurd hres (by simp)
  injection hres with hres
  subst hres
  rw [List.length_map, List.length_range] at hi
  have hget : ∀ r : AnnRecord,
      ((List.range vals.length).map (fun k =>
        (⟨vals.getD k 0, meanQ (windowSlice vals w k), rollVar (windowSlice vals w k),
          match rollVar (windowSlice vals w k) with
          | none => false
          | some vv => absGtSqrtMul (vals.getD k 0 - meanQ (windowSlice vals w k)) vv thr⟩
            : AnnRecord))).getD i r
        = ⟨vals.getD i 0, meanQ (windowSlice vals w i), rollVar (windowSlice vals w i),
            match rollVar (windowSlice vals w i) with
            | none => false
            | some vv => absGtSqrtMul (vals.getD i 0 - meanQ (windowSlice vals w i)) vv thr⟩ := by
    intro r
    simp [List.getD_eq_getElem?_getD, List.getElem?_map, List.getElem?_range, hi]
  rw [hget annDefault]
  rcases hv : rollVar (windowSlice vals w i) with - | vv
  · simp [hv]
  · simp only [hv]
    rw [absGtSqrtMul_iff _ _ _ (rollVar_nonneg _ _ hv)]
    push_cast
    simp

/-- The series used in the C6 witness. -/
def valsC6 : List ℚ := [0, 1, 0]

/-- The annotated series `detect_anomalies` produces in the C6 witness
(window 3, threshold 1). -/
def annC6 : List AnnRecord :=
  (List.range valsC6.length).map (fun i =>
    ⟨valsC6.getD i 0, meanQ (windowSlice valsC6 3 i), rollVar (windowSlice valsC6 3 i),
      match rollVar (windowSlice valsC6 3 i) with
      | none => false
      | some vv => absGtSqrtMul (valsC6.getD i 0 - meanQ (windowSlice valsC6 3 i)) vv 1⟩)

/-- C6 witness: the flag/deviation equivalence at position 1 of a
concrete run. -/
theorem C6_anomaly_iff_deviation_exceeds_scaled_std_witness :
    1 < annC6.length
    ∧ ((annC6.getD 1 annDefault).is_anomaly = true
        ↔ ∃ v, (annC6.getD 1 annDefault).rolling_var = some v
            ∧ Real.sqrt (v : ℝ) * ((1 : ℚ) : ℝ)
                < |((annC6.getD 1 annDefault).ndvi : ℝ)
                    - ((annC6.getD 1 annDefault).rolling_mean : ℝ)|) :=
  ⟨by decide,
   C6_anomaly_iff_deviation_exceeds_scaled_std 3 1 valsC6 annC6 rfl 1 (by decide)⟩

end AgriML
